import Mathlib

/-!
Shallow embedding of the dqlite in-memory VFS (`vfs.c`, here `src/unnamed/part_000`)
and of the page-size decoding helpers (`src/src/format.c`), together with proofs
about the behaviour the specification describes.

Conventions:
* C `unsigned` counters are modelled as `Nat` (the source guards every decrement,
  so no wrap-around occurs).
* Byte buffers are `List Nat` whose elements are byte values.
* SQLite result codes and POSIX errno values are the numeric constants of
  `sqlite3.h` / `errno.h`.
-/

namespace Dqlite

/-! ### SQLite result codes (sqlite3.h) and errno values (errno.h) -/

def SQLITE_OK : Nat := 0
def SQLITE_BUSY : Nat := 5
def SQLITE_NOMEM : Nat := 7
def SQLITE_IOERR : Nat := 10
def SQLITE_CORRUPT : Nat := 11
def SQLITE_NOTFOUND : Nat := 12
def SQLITE_CANTOPEN : Nat := 14
def SQLITE_PROTOCOL : Nat := 15
/-- `SQLITE_IOERR | (1 << 8)` -/
def SQLITE_IOERR_READ : Nat := 266
/-- `SQLITE_IOERR | (2 << 8)` -/
def SQLITE_IOERR_SHORT_READ : Nat := 522
/-- `SQLITE_IOERR | (3 << 8)` -/
def SQLITE_IOERR_WRITE : Nat := 778
/-- `SQLITE_IOERR | (6 << 8)` -/
def SQLITE_IOERR_TRUNCATE : Nat := 1546
/-- `SQLITE_IOERR | (10 << 8)` -/
def SQLITE_IOERR_DELETE : Nat := 2570
/-- `SQLITE_IOERR | (23 << 8)` -/
def SQLITE_IOERR_DELETE_NOENT : Nat := 5898

def ENOENT : Nat := 2
def ENOMEM : Nat := 12
def EBUSY : Nat := 16
def EEXIST : Nat := 17

/-- `SQLITE_SHM_NLOCK` -/
def SHM_NLOCK : Nat := 16

/-! ### Shared-memory lock table (`struct vfsShm`)

The region table (`regions`/`regions_len`) is managed by `vfsFileShmMap` and is
not referenced by any of the lock-table claims, so only the two lock-count
arrays are modelled.  Slots are addressed by plain `Nat`; every legal operation
stays below `SHM_NLOCK`. -/

structure VfsShm where
  shared : Nat → Nat
  exclusive : Nat → Nat

/-- `vfsShmInit`: all lock counts start at zero. -/
def vfsShmInit : VfsShm := ⟨fun _ => 0, fun _ => 0⟩

/-- Is some slot `i` with `ofst ≤ i < ofst + n` flagged by `p`?  Mirrors the
`for (i = ofst; i < ofst + n; i++)` scan loops of `vfsFileShmLock`. -/
def rangeHas (p : Nat → Bool) (ofst n : Nat) : Bool :=
  (List.range n).any fun k => p (ofst + k)

/-- Pointwise update of the slots in `[ofst, ofst + n)`. -/
def mapRange (f : Nat → Nat) (ofst n : Nat) (g : Nat → Nat) : Nat → Nat :=
  fun i => if ofst ≤ i ∧ i < ofst + n then g (f i) else f i

inductive ShmMode | shared | exclusive
  deriving DecidableEq

inductive ShmDir | lock | unlock
  deriving DecidableEq

/-- `vfsFileShmLock` (part_000 lines 1243–1325), acting on the lock table.
Returns the SQLite result code and the new lock table.

* unlock (either mode): decrement each count in the range, but only when it is
  positive ("releasing a never acquired lock is legal and idempotent");
* lock exclusive: `SQLITE_BUSY` if any shared or exclusive count in the range
  is positive, otherwise set each exclusive count to 1;
* lock shared: `SQLITE_BUSY` if any exclusive count in the range is positive,
  otherwise increment each shared count. -/
def vfsFileShmLock (s : VfsShm) (ofst n : Nat) (mode : ShmMode) (dir : ShmDir) :
    Nat × VfsShm :=
  match dir with
  | .unlock =>
    match mode with
    | .shared =>
      (SQLITE_OK,
       ⟨mapRange s.shared ofst n (fun x => if 0 < x then x - 1 else x), s.exclusive⟩)
    | .exclusive =>
      (SQLITE_OK,
       ⟨s.shared, mapRange s.exclusive ofst n (fun x => if 0 < x then x - 1 else x)⟩)
  | .lock =>
    match mode with
    | .exclusive =>
      if rangeHas (fun i => s.shared i != 0 || s.exclusive i != 0) ofst n then
        (SQLITE_BUSY, s)
      else
        (SQLITE_OK, ⟨s.shared, mapRange s.exclusive ofst n (fun _ => 1)⟩)
    | .shared =>
      if rangeHas (fun i => s.exclusive i != 0) ofst n then
        (SQLITE_BUSY, s)
      else
        (SQLITE_OK, ⟨mapRange s.shared ofst n (fun x => x + 1), s.exclusive⟩)

/-- One shm-lock request: offset, slot count, mode and direction. -/
structure ShmOp where
  ofst : Nat
  n : Nat
  mode : ShmMode
  dir : ShmDir
  deriving DecidableEq

/-- The preconditions `vfsFileShmLock` asserts on its arguments:
`ofst + n ≤ SQLITE_SHM_NLOCK`, `n ≥ 1`, and `n == 1` unless the mode is
exclusive. -/
def LegalShmOp (op : ShmOp) : Prop :=
  op.ofst + op.n ≤ SHM_NLOCK ∧ 1 ≤ op.n ∧ (op.mode = .shared → op.n = 1)

instance (op : ShmOp) : Decidable (LegalShmOp op) := by
  unfold LegalShmOp; infer_instance

def applyShmOp (s : VfsShm) (op : ShmOp) : VfsShm :=
  (vfsFileShmLock s op.ofst op.n op.mode op.dir).2

def applyShmOps (s : VfsShm) (ops : List ShmOp) : VfsShm :=
  ops.foldl applyShmOp s

/-! ### Page-size decoding (`src/src/format.c`) -/

/-- `formatGet32`: big-endian decoding of 4 bytes (each `< 256`). -/
def formatGet32 (b0 b1 b2 b3 : Nat) : Nat :=
  b0 * 2 ^ 24 + b1 * 2 ^ 16 + b2 * 2 ^ 8 + b3

/-- `FORMAT__PAGE_SIZE_MIN` -/
def PAGE_SIZE_MIN : Nat := 512
/-- `FORMAT__PAGE_SIZE_MAX` -/
def PAGE_SIZE_MAX : Nat := 65536

/-- `formatDecodePageSize` (format.c lines 36–53): a stored value of 1 means
65536; otherwise the value must be a power of two between 512 and
`FORMAT__PAGE_SIZE_MAX / 2 = 32768`, and 0 is returned when it is out of
bounds. -/
def formatDecodePageSize (b0 b1 b2 b3 : Nat) : Nat :=
  let page_size := formatGet32 b0 b1 b2 b3
  if page_size = 1 then PAGE_SIZE_MAX
  else if page_size < PAGE_SIZE_MIN then 0
  else if page_size > PAGE_SIZE_MAX / 2 then 0
  else if (page_size - 1) &&& page_size != 0 then 0
  else page_size

/-- `formatDatabaseGetPageSize`: the page size is stored big-endian in bytes
16 and 17 of the database header. -/
def formatDatabaseGetPageSize (header : List Nat) : Nat :=
  formatDecodePageSize 0 0 (header.getD 16 0) (header.getD 17 0)

/-- `formatWalGetPageSize`: the page size is stored big-endian in the 4 header
bytes starting at offset 8. -/
def formatWalGetPageSize (header : List Nat) : Nat :=
  formatDecodePageSize (header.getD 8 0) (header.getD 9 0)
    (header.getD 10 0) (header.getD 11 0)

/-- Modelled from the spec: `format__get_page_size(FORMAT__DB, buf, &page_size)`
is declared in `format.h` and called by `vfsFileWrite`, but that era's
implementation is not under `src/`; only the decoder
(`formatDecodePageSize` / `formatDatabaseGetPageSize`, `src/src/format.c`)
is.  Per the spec (§4.5, §7), the first database write decodes the page size
from header bytes 16..18 and an invalid size is rejected as a corruption
error, so rejection is modelled as `SQLITE_CORRUPT`. -/
def format__get_page_size_db (buf : List Nat) : Except Nat Nat :=
  if formatDatabaseGetPageSize buf = 0 then .error SQLITE_CORRUPT
  else .ok (formatDatabaseGetPageSize buf)

/-- Modelled from the spec: `format__wal_calc_pgno(page_size, offset)` is
declared in `format.h`, which is not under `src/`.  Per the spec (§4.4), the
frame holding WAL offset `offset` is
`pgno = (offset - 32) / (page_size + 24) + 1` (WAL header 32 bytes, frame
header 24 bytes). -/
def format__wal_calc_pgno (page_size offset : Nat) : Nat :=
  (offset - 32) / (page_size + 24) + 1

/-! ### File contents (`struct vfsPage`, `struct vfsContent`, `struct vfs`) -/

/-- `struct vfsPage`: page body plus (for WAL pages) a 24-byte frame header.
For database pages the source keeps `hdr == NULL`, modelled as `[]`. -/
structure VfsPage where
  buf : List Nat
  hdr : List Nat
  deriving DecidableEq

/-- `vfsPageCreate`: a zero-filled page body; WAL pages also get a zero-filled
24-byte frame header. -/
def vfsPageCreate (size : Nat) (wal : Bool) : VfsPage :=
  ⟨List.replicate size 0, if wal then List.replicate 24 0 else []⟩

inductive ContentType
  | database | journal | wal
  deriving DecidableEq

/-- `struct vfsContent`.  The C union over the database fields (`shm`, `wal`
back-pointer) and the WAL field (`hdr`) is flattened: fields irrelevant to a
variant keep their creation value.  The WAL back-pointer is modelled by the
WAL's filename. -/
structure VfsContent where
  filename : String
  pages : List VfsPage
  pageSize : Nat
  refcount : Nat
  type : ContentType
  shm : VfsShm
  walRef : Option String
  hdr : List Nat

/-- `vfsContentCreate`: fresh content, with a zeroed 32-byte WAL header for WAL
files. -/
def vfsContentCreate (name : String) (t : ContentType) : VfsContent :=
  { filename := name, pages := [], pageSize := 0, refcount := 0, type := t,
    shm := vfsShmInit, walRef := none,
    hdr := match t with | .wal => List.replicate 32 0 | _ => [] }

/-- `vfsContentIsEmpty`: a file is empty iff it has no pages. -/
def vfsContentIsEmpty (c : VfsContent) : Bool :=
  c.pages.length == 0

/-- `vfsContentPageLookup`: the existing page `pgno` (1-based), or `none` if it
was never written. -/
def vfsContentPageLookup (c : VfsContent) (pgno : Nat) : Option VfsPage :=
  if pgno > c.pages.length then none
  else c.pages[pgno - 1]?

/-- `vfsContentPageGet`, existence part: fail with `SQLITE_IOERR_WRITE` when
`pgno` skips past `n_pages + 1`; append a fresh page when `pgno` is exactly
`n_pages + 1`; otherwise the page already exists. -/
def vfsContentPageGet (c : VfsContent) (pgno : Nat) : Except Nat VfsContent :=
  if pgno > c.pages.length + 1 then .error SQLITE_IOERR_WRITE
  else if pgno = c.pages.length + 1 then
    .ok {c with pages := c.pages ++ [vfsPageCreate c.pageSize (c.type == .wal)]}
  else .ok c

/-- `memcpy(dst, src, src.length)` into the front of `dst`, preserving the
bytes of `dst` past `src.length` and the length of `dst`. -/
def copyBytes (dst src : List Nat) : List Nat :=
  src.take dst.length ++ dst.drop src.length

/-- Replace page `pgno` (1-based) by `f` applied to it. -/
def listModify (f : VfsPage → VfsPage) : List VfsPage → Nat → List VfsPage
  | [], _ => []
  | a :: as, 0 => f a :: as
  | a :: as, i + 1 => a :: listModify f as i

def contentModifyPage (c : VfsContent) (pgno : Nat) (f : VfsPage → VfsPage) :
    VfsContent :=
  {c with pages := listModify f c.pages (pgno - 1)}

/-- `vfsContentTruncate`: drop all pages beyond `n_pages`; for WAL files
(always truncated to zero) also reset the 32-byte WAL header to zeros. -/
def vfsContentTruncate (c : VfsContent) (n_pages : Nat) : VfsContent :=
  let c1 := {c with pages := c.pages.take n_pages}
  match c.type with
  | .wal => {c1 with hdr := List.replicate 32 0}
  | _ => c1

/-- `struct vfs`: the backend registry, a list of file contents plus the
last-error errno. -/
structure Vfs where
  contents : List VfsContent
  error : Nat

/-- `vfsContentLookup`: first content whose filename matches. -/
def vfsContentLookup (v : Vfs) (filename : String) : Option VfsContent :=
  v.contents.find? fun c => c.filename == filename

/-- `vfsDatabaseContentLookup`: strip the trailing `"-wal"` (the source copies
`strlen(wal_filename) - strlen("-wal")` characters) and look the database up
by that name; `SQLITE_CORRUPT` when it does not exist. -/
def vfsDatabaseContentLookup (v : Vfs) (wal_filename : String) :
    Except Nat VfsContent :=
  match vfsContentLookup v (wal_filename.dropRight 4) with
  | none => .error SQLITE_CORRUPT
  | some c => .ok c

/-- `vfsDatabasePageSize`: page size of the database paired with the given WAL
filename (the source asserts it is already set). -/
def vfsDatabasePageSize (v : Vfs) (wal_filename : String) : Except Nat Nat :=
  match vfsDatabaseContentLookup v wal_filename with
  | .error e => .error e
  | .ok c => .ok c.pageSize

/-! ### Registry operations (`vfsDeleteContent`, `vfsAccess`, `vfsGetLastError`) -/

/-- Outcome of the scan loop inside `vfsDeleteContent`. -/
inductive DeleteOutcome
  | busy
  | ok (rest : List VfsContent)
  | noent

/-- The `for` loop of `vfsDeleteContent`: find the first content with the given
filename; report busy when its refcount is positive, otherwise remove it. -/
def deleteScan (name : String) : List VfsContent → DeleteOutcome
  | [] => .noent
  | c :: rest =>
    if c.filename == name then
      if 0 < c.refcount then .busy else .ok rest
    else
      match deleteScan name rest with
      | .noent => .noent
      | .busy => .busy
      | .ok rest2 => .ok (c :: rest2)

/-- `vfsDeleteContent` (part_000 lines 539–571): `SQLITE_IOERR_DELETE` with
errno `EBUSY` when the file is still referenced, `SQLITE_OK` after destroying
it otherwise, `SQLITE_IOERR_DELETE_NOENT` with errno `ENOENT` when absent. -/
def vfsDeleteContent (v : Vfs) (filename : String) : Nat × Vfs :=
  match deleteScan filename v.contents with
  | .busy => (SQLITE_IOERR_DELETE, {v with error := EBUSY})
  | .ok rest => (SQLITE_OK, {v with contents := rest})
  | .noent => (SQLITE_IOERR_DELETE_NOENT, {v with error := ENOENT})

/-- `vfsAccess`: always `SQLITE_OK`; `*result` is 1 iff a content with the
given filename exists. -/
def vfsAccess (v : Vfs) (filename : String) : Nat × Nat :=
  match vfsContentLookup v filename with
  | none => (SQLITE_OK, 0)
  | some _ => (SQLITE_OK, 1)

/-- `vfsGetLastError`: the cached errno-flavored code. -/
def vfsGetLastError (v : Vfs) : Nat :=
  v.error

/-! ### Handle I/O: read (`vfsFileRead`) -/

/-- Shared tail of the WAL read branches: the `pgno == 0` guard of the source
followed by the page lookup.  A `pgno` beyond the page count is modelled from
the spec (§4.4: "If the computed pgno exceeds the WAL's current page count,
zero-fill and report short-read"); the era of `format.h` that decides whether
`format__wal_calc_pgno` can report such a frame is not under `src/`, and
SQLite only reads frames it has written. -/
def walFrameRead (c : VfsContent) (amount pgno : Nat) (f : VfsPage → List Nat) :
    Nat × List Nat :=
  if pgno = 0 then (SQLITE_IOERR_SHORT_READ, List.replicate amount 0)
  else
    match vfsContentPageLookup c pgno with
    | none => (SQLITE_IOERR_SHORT_READ, List.replicate amount 0)
    | some p => (SQLITE_OK, f p)

/-- `vfsFileRead` (part_000 lines 603–778): result code together with the bytes
placed in the caller's buffer (`[]` when the source leaves the buffer
untouched).

* any empty file: zero-fill, `SQLITE_IOERR_SHORT_READ`;
* database: page-1 sub-read when `offset < page_size`, otherwise the full page
  `offset / page_size + 1` (a lookup past the page vector cannot be reached:
  SQLite never reads past the database end, and the source would dereference
  NULL there);
* journal (non-empty, which never arises): `SQLITE_IOERR_READ`;
* WAL: inherit the page size from the paired database if unset, then dispatch
  on `amount`: 32-byte header at offset 0, 24-byte frame header, 8-byte
  checksum (from the WAL header when `offset == 24`, else from a frame
  header), one page body, or a full frame.

Note: on the inherit path the source also stores the page size into the
content; reads return no updated content, so that store is not observable
here (the read claims all assume the page size is already set). -/
def vfsFileRead (v : Vfs) (c : VfsContent) (amount offset : Nat) :
    Nat × List Nat :=
  if vfsContentIsEmpty c then
    (SQLITE_IOERR_SHORT_READ, List.replicate amount 0)
  else
    match c.type with
    | .database =>
      let pgno := if offset < c.pageSize then 1 else offset / c.pageSize + 1
      match vfsContentPageLookup c pgno with
      | none => (SQLITE_IOERR_READ, [])
      | some page =>
        if pgno = 1 then (SQLITE_OK, (page.buf.drop offset).take amount)
        else (SQLITE_OK, page.buf.take amount)
    | .journal => (SQLITE_IOERR_READ, [])
    | .wal =>
      match (if c.pageSize = 0 then vfsDatabasePageSize v c.filename
             else .ok c.pageSize) with
      | .error e => (e, [])
      | .ok ps =>
        if offset = 0 then
          (SQLITE_OK, c.hdr.take 32)
        else if amount = 24 then
          walFrameRead c amount (format__wal_calc_pgno ps offset)
            (fun p => p.hdr.take 24)
        else if amount = 8 then
          if offset = 24 then (SQLITE_OK, (c.hdr.drop 24).take 8)
          else
            walFrameRead c amount ((offset - 16 - 32) / (ps + 24) + 1)
              (fun p => (p.hdr.drop 16).take 8)
        else if amount = ps then
          walFrameRead c amount (format__wal_calc_pgno ps offset)
            (fun p => p.buf.take ps)
        else
          walFrameRead c amount (format__wal_calc_pgno ps offset)
            (fun p => p.hdr.take 24 ++ p.buf.take ps)

/-! ### Handle I/O: write (`vfsFileWrite`) -/

/-- Database page write: ensure page `pgno` exists, then `memcpy` the buffer
into the front of its body. -/
def dbWriteAt (c : VfsContent) (pgno : Nat) (buf : List Nat) : Nat × VfsContent :=
  match vfsContentPageGet c pgno with
  | .error rc => (rc, c)
  | .ok c1 =>
    (SQLITE_OK,
     contentModifyPage c1 pgno fun p => {p with buf := copyBytes p.buf buf})

/-- `vfsFileWrite` (part_000 lines 780–956): result code and updated content;
the amount written is `buf.length`.

* database, `offset == 0`: decode the page size from the header (rejecting an
  invalid one), record it if unset, and write page 1;
* database, `offset > 0`: `SQLITE_IOERR_WRITE` unless the page size is set,
  then write page `offset / page_size + 1`;
* journal: silently swallowed;
* WAL: inherit the page size if unset; at offset 0 validate the header's page
  size against the database's (`SQLITE_CORRUPT` otherwise) and store the
  32-byte header; a 24-byte write allocates the frame and fills its header
  (`SQLITE_NOMEM` when the page cannot be obtained, as in the source's
  `page == NULL` check); otherwise a page-body write into the existing frame
  (whose header the source asserts was already written). -/
def vfsFileWrite (v : Vfs) (c : VfsContent) (buf : List Nat) (offset : Nat) :
    Nat × VfsContent :=
  match c.type with
  | .database =>
    if offset = 0 then
      match format__get_page_size_db buf with
      | .error rc => (rc, c)
      | .ok page_size =>
        let c1 := if 0 < c.pageSize then c else {c with pageSize := page_size}
        dbWriteAt c1 1 buf
    else
      if c.pageSize = 0 then (SQLITE_IOERR_WRITE, c)
      else dbWriteAt c (offset / c.pageSize + 1) buf
  | .journal => (SQLITE_OK, c)
  | .wal =>
    match (if c.pageSize = 0 then vfsDatabasePageSize v c.filename
           else .ok c.pageSize) with
    | .error e => (e, c)
    | .ok ps =>
      let c1 := {c with pageSize := ps}
      if offset = 0 then
        if formatWalGetPageSize buf = 0 then (SQLITE_CORRUPT, c1)
        else if formatWalGetPageSize buf ≠ ps then (SQLITE_CORRUPT, c1)
        else (SQLITE_OK, {c1 with hdr := copyBytes c1.hdr buf})
      else if buf.length = 24 then
        match vfsContentPageGet c1 (format__wal_calc_pgno ps offset) with
        | .error _ => (SQLITE_NOMEM, c1)
        | .ok c2 =>
          (SQLITE_OK,
           contentModifyPage c2 (format__wal_calc_pgno ps offset)
             fun p => {p with hdr := copyBytes p.hdr buf})
      else
        match vfsContentPageLookup c1 (format__wal_calc_pgno ps offset) with
        | none => (SQLITE_IOERR_WRITE, c1)
        | some _ =>
          (SQLITE_OK,
           contentModifyPage c1 (format__wal_calc_pgno ps offset)
             fun p => {p with buf := copyBytes p.buf buf})

/-! ### Truncate (`vfsFileTruncate`) -/

/-- `vfsFileTruncate` (part_000 lines 958–1018):
* journal (neither database nor WAL): `SQLITE_IOERR_TRUNCATE`;
* empty file: `SQLITE_IOERR_TRUNCATE` for a non-zero size, otherwise nothing
  to do;
* database: the size must be a multiple of the page size; shrink to
  `size / page_size` pages;
* WAL: only truncation to zero is allowed (`SQLITE_PROTOCOL` otherwise), which
  drops all frames and zeroes the WAL header. -/
def vfsFileTruncate (c : VfsContent) (size : Nat) : Nat × VfsContent :=
  match c.type with
  | .journal => (SQLITE_IOERR_TRUNCATE, c)
  | .database =>
    if vfsContentIsEmpty c then
      if 0 < size then (SQLITE_IOERR_TRUNCATE, c) else (SQLITE_OK, c)
    else if size % c.pageSize ≠ 0 then (SQLITE_IOERR_TRUNCATE, c)
    else (SQLITE_OK, vfsContentTruncate c (size / c.pageSize))
  | .wal =>
    if vfsContentIsEmpty c then
      if 0 < size then (SQLITE_IOERR_TRUNCATE, c) else (SQLITE_OK, c)
    else if size ≠ 0 then (SQLITE_PROTOCOL, c)
    else (SQLITE_OK, vfsContentTruncate c 0)

/-! ### Open (`vfsOpen`) -/

/-- The open flags `vfsOpen` inspects (temp files, opened with a NULL filename,
are delegated to the host file system and are not modelled). -/
structure OpenFlags where
  exclusive : Bool
  create : Bool
  mainDb : Bool
  mainJournal : Bool
  wal : Bool
  deleteOnClose : Bool
  deriving DecidableEq

/-- Bump the refcount of the first content with the given filename (the open
path increments `content->refcount` after the lookup or insertion). -/
def bumpFirst (name : String) : List VfsContent → List VfsContent
  | [] => []
  | c :: rest =>
    if c.filename == name then {c with refcount := c.refcount + 1} :: rest
    else c :: bumpFirst name rest

/-- Store the WAL back-reference (`database->wal = content`) into the first
content with the database's filename. -/
def setWalRef (dbName walName : String) : List VfsContent → List VfsContent
  | [] => []
  | c :: rest =>
    if c.filename == dbName then {c with walRef := some walName} :: rest
    else c :: setWalRef dbName walName rest

/-- `vfsOpen` (part_000 lines 1364–1519), named-file path:
* the file exists: `SQLITE_CANTOPEN` (errno `EEXIST`) when exclusive+create,
  otherwise bump its refcount;
* the file does not exist: `SQLITE_CANTOPEN` (errno `ENOENT`) without the
  create flag or with an unknown file-type flag; otherwise create the content.
  For a WAL, the paired database must already exist: on failure the content
  just created is destroyed, nothing is registered, the lookup's error
  (`SQLITE_CORRUPT`) is returned and the source stores errno `ENOMEM`; on
  success the database's WAL back-pointer is set.  The new content is appended
  and its refcount becomes 1. -/
def vfsOpen (v : Vfs) (filename : String) (fl : OpenFlags) : Nat × Vfs :=
  match vfsContentLookup v filename with
  | some _ =>
    if fl.exclusive && fl.create then (SQLITE_CANTOPEN, {v with error := EEXIST})
    else (SQLITE_OK, {v with contents := bumpFirst filename v.contents})
  | none =>
    if !fl.create then (SQLITE_CANTOPEN, {v with error := ENOENT})
    else
      match (if fl.mainDb then some ContentType.database
             else if fl.mainJournal then some ContentType.journal
             else if fl.wal then some ContentType.wal
             else none) with
      | none => (SQLITE_CANTOPEN, {v with error := ENOENT})
      | some t =>
        let content := vfsContentCreate filename t
        if t == ContentType.wal then
          match vfsDatabaseContentLookup v filename with
          | .error rc => (rc, {v with error := ENOMEM})
          | .ok _ =>
            (SQLITE_OK,
             {v with contents :=
               setWalRef (filename.dropRight 4) filename v.contents ++
                 [{content with refcount := 1}]})
        else
          (SQLITE_OK,
           {v with contents := v.contents ++ [{content with refcount := 1}]})

/-! ### Pragma file control (`vfsFileControlPragma`) -/

/-- The `page_size` branch of `vfsFileControlPragma` (part_000 lines
1098–1150), with `atoi(right)` already applied (`n` is the parsed C `int`).
A value that is a power of two in `[FORMAT__PAGE_SIZE_MIN,
FORMAT__PAGE_SIZE_MAX]` is recorded, except that changing an already-set size
fails with `SQLITE_IOERR`; invalid values are simply ignored.  Every
non-failing path returns `SQLITE_NOTFOUND` so that SQLite applies its own
handling as well. -/
def vfsFileControlPragmaPageSize (c : VfsContent) (n : Int) : Nat × VfsContent :=
  if 512 ≤ n ∧ n ≤ 65536 ∧ (n.toNat - 1) &&& n.toNat = 0 then
    if c.pageSize ≠ 0 ∧ n ≠ (c.pageSize : Int) then (SQLITE_IOERR, c)
    else (SQLITE_NOTFOUND, {c with pageSize := n.toNat})
  else (SQLITE_NOTFOUND, c)

/-! ### Lock-table lemmas -/

/-- Applying the second unlock of claim C8 (release shared over a range). -/
def unlockShared (s : VfsShm) (ofst n : Nat) : VfsShm :=
  (vfsFileShmLock s ofst n ShmMode.shared ShmDir.unlock).2

lemma mapRange_dec_eq (f : Nat → Nat) (ofst n i : Nat) :
    mapRange f ofst n (fun x => if 0 < x then x - 1 else x) i =
      if ofst ≤ i ∧ i < ofst + n ∧ 0 < f i then f i - 1 else f i := by
  unfold mapRange
  dsimp only
  by_cases h1 : ofst ≤ i ∧ i < ofst + n
  · rw [if_pos h1]
    by_cases h2 : 0 < f i
    · rw [if_pos h2, if_pos ⟨h1.1, h1.2, h2⟩]
    · rw [if_neg h2, if_neg (by tauto)]
  · rw [if_neg h1, if_neg (by tauto)]

lemma mapRange_dec_le (f : Nat → Nat) (ofst n i : Nat) :
    mapRange f ofst n (fun x => if 0 < x then x - 1 else x) i ≤ f i := by
  rw [mapRange_dec_eq]
  split <;> omega

lemma mapRange_eq_of_mem (f : Nat → Nat) (ofst n : Nat) (g : Nat → Nat) (i : Nat)
    (h1 : ofst ≤ i) (h2 : i < ofst + n) :
    mapRange f ofst n g i = g (f i) := by
  unfold mapRange
  rw [if_pos ⟨h1, h2⟩]

lemma mapRange_eq_of_not_mem (f : Nat → Nat) (ofst n : Nat) (g : Nat → Nat)
    (i : Nat) (h : ¬(ofst ≤ i ∧ i < ofst + n)) :
    mapRange f ofst n g i = f i := by
  unfold mapRange
  rw [if_neg h]

lemma rangeHas_eq_false_iff (p : Nat → Bool) (ofst n : Nat) :
    rangeHas p ofst n = false ↔
      ∀ i, ofst ≤ i → i < ofst + n → p i = false := by
  rw [← Bool.not_eq_true]
  unfold rangeHas
  rw [List.any_eq_true]
  push_neg
  constructor
  · intro h i h1 h2
    have h3 := h (i - ofst) (List.mem_range.mpr (by omega))
    have he : ofst + (i - ofst) = i := by omega
    rw [he] at h3
    rw [Bool.eq_false_iff]
    exact h3
  · intro h k hk
    rw [List.mem_range] at hk
    have h3 := h (ofst + k) (by omega) (by omega)
    simp [h3]

/-- The combined reachable-state invariant of the lock table: no slot is
simultaneously shared- and exclusive-locked, and exclusive counts never
exceed 1. -/
def ShmInv (s : VfsShm) : Prop :=
  ∀ i, ¬(0 < s.shared i ∧ 0 < s.exclusive i) ∧ s.exclusive i ≤ 1

lemma shmInv_init : ShmInv vfsShmInit := by
  intro i
  constructor
  · rintro ⟨h, _⟩
    exact absurd h (by simp [vfsShmInit])
  · simp [vfsShmInit]

lemma shmInv_applyShmOp (s : VfsShm) (op : ShmOp) (h : ShmInv s) :
    ShmInv (applyShmOp s op) := by
  obtain ⟨ofst, n, mode, dir⟩ := op
  unfold applyShmOp vfsFileShmLock
  cases dir <;> cases mode
  · -- lock shared
    dsimp only
    by_cases hb : rangeHas (fun i => s.exclusive i != 0) ofst n = true
    · rw [if_pos hb]; exact h
    · rw [if_neg hb]
      rw [Bool.not_eq_true, rangeHas_eq_false_iff] at hb
      intro i
      dsimp only
      refine ⟨?_, (h i).2⟩
      rintro ⟨h1, h2⟩
      by_cases hmem : ofst ≤ i ∧ i < ofst + n
      · have h3 := hb i hmem.1 hmem.2
        simp only [bne_eq_false_iff_eq] at h3
        omega
      · rw [mapRange_eq_of_not_mem _ _ _ _ _ hmem] at h1
        exact (h i).1 ⟨h1, h2⟩
  · -- lock exclusive
    dsimp only
    by_cases hb :
        rangeHas (fun i => s.shared i != 0 || s.exclusive i != 0) ofst n = true
    · rw [if_pos hb]; exact h
    · rw [if_neg hb]
      rw [Bool.not_eq_true, rangeHas_eq_false_iff] at hb
      intro i
      dsimp only
      by_cases hmem : ofst ≤ i ∧ i < ofst + n
      · have h3 := hb i hmem.1 hmem.2
        simp only [Bool.or_eq_false_iff, bne_eq_false_iff_eq] at h3
        rw [mapRange_eq_of_mem _ _ _ _ _ hmem.1 hmem.2]
        exact ⟨by omega, by omega⟩
      · rw [mapRange_eq_of_not_mem _ _ _ _ _ hmem]
        exact h i
  · -- unlock shared
    dsimp only
    intro i
    dsimp only
    have hle := mapRange_dec_le s.shared ofst n i
    refine ⟨?_, (h i).2⟩
    rintro ⟨h1, h2⟩
    exact (h i).1 ⟨by omega, h2⟩
  · -- unlock exclusive
    dsimp only
    intro i
    dsimp only
    have hle := mapRange_dec_le s.exclusive ofst n i
    refine ⟨?_, by have := (h i).2; omega⟩
    rintro ⟨h1, h2⟩
    exact (h i).1 ⟨h1, by omega⟩

lemma shmInv_applyShmOps (ops : List ShmOp) :
    ShmInv (applyShmOps vfsShmInit ops) := by
  suffices h : ∀ s, ShmInv s → ShmInv (applyShmOps s ops) from
    h vfsShmInit shmInv_init
  induction ops with
  | nil => intro s hs; exact hs
  | cons op ops ih =>
    intro s hs
    exact ih (applyShmOp s op) (shmInv_applyShmOp s op hs)

/-- C1: starting from the freshly initialized lock table (`vfsShmInit`, all
16 shared and exclusive counts zero), after any sequence of legal shm-lock
operations every slot's shared and exclusive counts are nonnegative and never
simultaneously positive. -/
theorem shm_lock_counts_invariant (ops : List ShmOp)
    (hleg : ∀ op ∈ ops, LegalShmOp op) (i : Nat) :
    0 ≤ (applyShmOps vfsShmInit ops).shared i ∧
    0 ≤ (applyShmOps vfsShmInit ops).exclusive i ∧
    ¬(0 < (applyShmOps vfsShmInit ops).shared i ∧
      0 < (applyShmOps vfsShmInit ops).exclusive i) :=
  ⟨Nat.zero_le _, Nat.zero_le _, (shmInv_applyShmOps ops i).1⟩

/-- Witness for C1: a concrete legal lock/unlock sequence, checked at slot 0. -/
theorem shm_lock_counts_invariant_witness :
    (∀ op ∈ [ShmOp.mk 0 1 .shared .lock, ShmOp.mk 0 5 .exclusive .unlock],
        LegalShmOp op) ∧
    ¬(0 < (applyShmOps vfsShmInit
            [ShmOp.mk 0 1 .shared .lock, ShmOp.mk 0 5 .exclusive .unlock]).shared 0 ∧
      0 < (applyShmOps vfsShmInit
            [ShmOp.mk 0 1 .shared .lock, ShmOp.mk 0 5 .exclusive .unlock]).exclusive 0) :=
  ⟨by decide,
   (shm_lock_counts_invariant
      [ShmOp.mk 0 1 .shared .lock, ShmOp.mk 0 5 .exclusive .unlock]
      (by decide) 0).2.2⟩

/-- C9: in every lock-table state reachable by legal shm-lock operations from
the all-zero state, each exclusive count is 0 or 1, and consequently a
release-exclusive over any range containing the slot leaves the count equal
to zero (the guarded decrement coincides with setting it to zero). -/
theorem shm_exclusive_binary (ops : List ShmOp)
    (hleg : ∀ op ∈ ops, LegalShmOp op) (i : Nat) :
    ((applyShmOps vfsShmInit ops).exclusive i = 0 ∨
     (applyShmOps vfsShmInit ops).exclusive i = 1) ∧
    (∀ ofst n, ofst ≤ i → i < ofst + n →
      (vfsFileShmLock (applyShmOps vfsShmInit ops) ofst n
          .exclusive .unlock).2.exclusive i = 0) := by
  have hinv := (shmInv_applyShmOps ops i).2
  constructor
  · omega
  · intro ofst n h1 h2
    show mapRange (applyShmOps vfsShmInit ops).exclusive ofst n
        (fun x => if 0 < x then x - 1 else x) i = 0
    rw [mapRange_dec_eq]
    split <;> omega

/-- Witness for C9: after acquiring an exclusive lock on slots [0,2), the
count at slot 1 is 1, and releasing over [0,2) zeroes it. -/
theorem shm_exclusive_binary_witness :
    ((applyShmOps vfsShmInit [ShmOp.mk 0 2 .exclusive .lock]).exclusive 1 = 0 ∨
     (applyShmOps vfsShmInit [ShmOp.mk 0 2 .exclusive .lock]).exclusive 1 = 1) ∧
    (vfsFileShmLock (applyShmOps vfsShmInit [ShmOp.mk 0 2 .exclusive .lock]) 0 2
        .exclusive .unlock).2.exclusive 1 = 0 :=
  ⟨(shm_exclusive_binary [ShmOp.mk 0 2 .exclusive .lock] (by decide) 1).1,
   (shm_exclusive_binary [ShmOp.mk 0 2 .exclusive .lock] (by decide) 1).2
     0 2 (by decide) (by decide)⟩

/-- C8: releasing shared locks over a range performs exactly the guarded
decrement (never driving a count below zero, and never touching exclusive
counts); a slot whose count has reached zero is left at zero by a repeated
release, and once every count in the range is zero the second release is the
identity on the whole lock table. -/
theorem unlock_shared_idempotent (s : VfsShm) (ofst n : Nat) :
    (∀ i, (unlockShared s ofst n).shared i =
        if ofst ≤ i ∧ i < ofst + n ∧ 0 < s.shared i then s.shared i - 1
        else s.shared i) ∧
    (∀ i, (unlockShared s ofst n).exclusive i = s.exclusive i) ∧
    (∀ i, (unlockShared s ofst n).shared i = 0 →
        (unlockShared (unlockShared s ofst n) ofst n).shared i = 0) ∧
    ((∀ i, ofst ≤ i → i < ofst + n → (unlockShared s ofst n).shared i = 0) →
        unlockShared (unlockShared s ofst n) ofst n = unlockShared s ofst n) := by
  refine ⟨fun i => mapRange_dec_eq s.shared ofst n i, fun i => rfl, ?_, ?_⟩
  · intro i h0
    show mapRange (unlockShared s ofst n).shared ofst n
        (fun x => if 0 < x then x - 1 else x) i = 0
    rw [mapRange_dec_eq, h0]
    split <;> omega
  · intro hall
    show VfsShm.mk _ _ = VfsShm.mk _ _
    rw [VfsShm.mk.injEq]
    refine ⟨funext fun i => ?_, rfl⟩
    show mapRange (unlockShared s ofst n).shared ofst n
        (fun x => if 0 < x then x - 1 else x) i = (unlockShared s ofst n).shared i
    rw [mapRange_dec_eq]
    by_cases hmem : ofst ≤ i ∧ i < ofst + n
    · have h0 := hall i hmem.1 hmem.2
      rw [if_neg (by omega)]
    · rw [if_neg (by tauto)]

/-- Witness for C8 at a concrete lock table (2 shared locks on slot 0): the
first release decrements to 1, exclusive counts are untouched, and a slot at
zero stays at zero. -/
theorem unlock_shared_idempotent_witness :
    (unlockShared ⟨fun i => if i = 0 then 2 else 0, fun _ => 0⟩ 0 1).shared 0 =
      (if 0 ≤ 0 ∧ 0 < 0 + 1 ∧
          0 < (fun i => if i = 0 then 2 else 0 : Nat → Nat) 0 then
        (fun i => if i = 0 then 2 else 0 : Nat → Nat) 0 - 1
      else (fun i => if i = 0 then 2 else 0 : Nat → Nat) 0) ∧
    (unlockShared ⟨fun i => if i = 0 then 2 else 0, fun _ => 0⟩ 0 1).exclusive 3 =
      (fun _ => 0 : Nat → Nat) 3 ∧
    ((unlockShared ⟨fun i => if i = 0 then 2 else 0, fun _ => 0⟩ 0 1).shared 5 = 0 →
      (unlockShared (unlockShared ⟨fun i => if i = 0 then 2 else 0, fun _ => 0⟩ 0 1)
          0 1).shared 5 = 0) :=
  ⟨(unlock_shared_idempotent ⟨fun i => if i = 0 then 2 else 0, fun _ => 0⟩ 0 1).1 0,
   (unlock_shared_idempotent ⟨fun i => if i = 0 then 2 else 0, fun _ => 0⟩ 0 1).2.1 3,
   (unlock_shared_idempotent ⟨fun i => if i = 0 then 2 else 0, fun _ => 0⟩ 0 1).2.2.1 5⟩

/-! ### The C power-of-two test `((x - 1) & x) == 0` -/

/-- For positive `n`, the C test `((n - 1) & n) == 0` holds exactly when `n`
is a power of two. -/
lemma land_pred_eq_zero_iff (n : Nat) (hn : 0 < n) :
    (n - 1) &&& n = 0 ↔ ∃ k, n = 2 ^ k := by
  constructor
  · intro h
    by_contra hnp
    push_neg at hnp
    have h1 : 2 ^ n.log2 ≤ n := Nat.log2_self_le (by omega)
    have h2 : n < 2 ^ (n.log2 + 1) := Nat.lt_log2_self
    have h2' : n < 2 * 2 ^ n.log2 := by
      have hp : 2 ^ (n.log2 + 1) = 2 ^ n.log2 * 2 := by rw [Nat.pow_succ]
      omega
    have hlt : 2 ^ n.log2 < n :=
      lt_of_le_of_ne h1 (fun he => hnp n.log2 he.symm)
    have nd1 : n / 2 ^ n.log2 = 1 :=
      Nat.div_eq_of_lt_le (by omega) (by omega)
    have nd2 : (n - 1) / 2 ^ n.log2 = 1 :=
      Nat.div_eq_of_lt_le (by omega) (by omega)
    have t1 : n.testBit n.log2 = true := by
      rw [Nat.testBit_to_div_mod, nd1]
      rfl
    have t2 : (n - 1).testBit n.log2 = true := by
      rw [Nat.testBit_to_div_mod, nd2]
      rfl
    have t3 : ((n - 1) &&& n).testBit n.log2 = true := by
      rw [Nat.testBit_and, t1, t2]
      rfl
    rw [h] at t3
    simp at t3
  · rintro ⟨k, rfl⟩
    apply Nat.eq_of_testBit_eq
    intro i
    simp only [Nat.testBit_and, Nat.testBit_two_pow_sub_one, Nat.testBit_two_pow,
      Nat.zero_testBit]
    by_cases hik : i < k
    · have hne : k ≠ i := by omega
      simp [hik, hne]
    · simp [hik]

/-! ### C2 — WAL checksum-field read at offset 24 -/

/-- A WAL content with one frame, page size 512 and header bytes `0..31`. -/
def walReadC2 : VfsContent :=
  { filename := "db-wal", pages := [vfsPageCreate 512 true], pageSize := 512,
    refcount := 1, type := .wal, shm := vfsShmInit, walRef := none,
    hdr := List.range 32 }

/-- C2 counterexample: on a non-empty WAL whose page size is set, the 8-byte
read at offset 24 returns bytes [24,32) of the WAL header, not bytes [16,24)
as the claim states. -/
theorem wal_checksum_read_counterexample :
    vfsFileRead ⟨[walReadC2], 0⟩ walReadC2 8 24 =
      (SQLITE_OK, [24, 25, 26, 27, 28, 29, 30, 31]) ∧
    (walReadC2.hdr.drop 16).take 8 = [16, 17, 18, 19, 20, 21, 22, 23] ∧
    ([24, 25, 26, 27, 28, 29, 30, 31] : List Nat) ≠
      [16, 17, 18, 19, 20, 21, 22, 23] := by
  refine ⟨by decide, by decide, by decide⟩

/-- C2 (amended): for every non-empty WAL file whose page size is set, a read
of exactly 8 bytes at offset 24 returns bytes [24,32) of the 32-byte WAL
header — the checksum field (the spec stores the WAL header checksum at bytes
[24,32); bytes [16,24) are the checksum field of a 24-byte *frame* header). -/
theorem wal_checksum_read (v : Vfs) (c : VfsContent) (hty : c.type = .wal)
    (hne : c.pages ≠ []) (hps : 0 < c.pageSize) :
    vfsFileRead v c 8 24 = (SQLITE_OK, (c.hdr.drop 24).take 8) := by
  have hE : vfsContentIsEmpty c = false := by
    simp [vfsContentIsEmpty, List.length_eq_zero, hne]
  have hps' : ¬ c.pageSize = 0 := by omega
  simp [vfsFileRead, hE, hty, hps']

/-- Witness for C2's amended theorem at the concrete WAL `walReadC2`. -/
theorem wal_checksum_read_witness :
    vfsFileRead ⟨[walReadC2], 0⟩ walReadC2 8 24 =
      (SQLITE_OK, (walReadC2.hdr.drop 24).take 8) :=
  wal_checksum_read ⟨[walReadC2], 0⟩ walReadC2 rfl (by decide) (by decide)

/-! ### C3 — journal reads -/

/-- A freshly created (hence empty) journal content. -/
def journalC3 : VfsContent := vfsContentCreate "db-journal" .journal

/-- C3 counterexample: a read on a journal file (journals are always empty)
returns the short-read indicator with a zero-filled buffer, not the read-I/O
error the claim states. -/
theorem journal_read_counterexample :
    vfsFileRead ⟨[journalC3], 0⟩ journalC3 8 0 =
      (SQLITE_IOERR_SHORT_READ, List.replicate 8 0) ∧
    SQLITE_IOERR_SHORT_READ ≠ SQLITE_IOERR_READ :=
  ⟨by decide, by decide⟩

/-- C3 (amended): journal writes are no-ops, so a journal's content is always
empty; consequently every read of a positive amount at any offset zero-fills
the buffer and returns the short-read indicator `SQLITE_IOERR_SHORT_READ`.
The `SQLITE_IOERR_READ` branch of `vfsFileRead` is reached only for a
non-empty journal, which never occurs. -/
theorem journal_read_short_read (v : Vfs) (c : VfsContent)
    (hty : c.type = .journal) :
    (∀ buf offset, vfsFileWrite v c buf offset = (SQLITE_OK, c)) ∧
    (c.pages = [] → ∀ amount offset, 0 < amount →
      vfsFileRead v c amount offset =
        (SQLITE_IOERR_SHORT_READ, List.replicate amount 0)) ∧
    (c.pages ≠ [] → ∀ amount offset,
      vfsFileRead v c amount offset = (SQLITE_IOERR_READ, [])) := by
  refine ⟨?_, ?_, ?_⟩
  · intro buf offset
    unfold vfsFileWrite
    rw [hty]
  · intro hp amount offset hamt
    have hE : vfsContentIsEmpty c = true := by
      simp [vfsContentIsEmpty, hp]
    simp [vfsFileRead, hE]
  · intro hp amount offset
    have hE : vfsContentIsEmpty c = false := by
      simp [vfsContentIsEmpty, List.length_eq_zero, hp]
    simp [vfsFileRead, hE, hty]

/-- Witness for C3's amended theorem at the concrete journal `journalC3`. -/
theorem journal_read_short_read_witness :
    vfsFileWrite ⟨[journalC3], 0⟩ journalC3 [1, 2] 0 = (SQLITE_OK, journalC3) ∧
    vfsFileRead ⟨[journalC3], 0⟩ journalC3 3 5 =
      (SQLITE_IOERR_SHORT_READ, List.replicate 3 0) :=
  ⟨(journal_read_short_read ⟨[journalC3], 0⟩ journalC3 rfl).1 [1, 2] 0,
   (journal_read_short_read ⟨[journalC3], 0⟩ journalC3 rfl).2.1 rfl 3 5
     (by decide)⟩

/-! ### C4 — opening a WAL whose paired database is missing -/

/-- `SQLITE_OPEN_CREATE | SQLITE_OPEN_WAL`. -/
def walCreateFlags : OpenFlags :=
  { exclusive := false, create := true, mainDb := false, mainJournal := false,
    wal := true, deleteOnClose := false }

/-- C4 counterexample: opening `"db-wal"` with the create flag on an empty
backend fails with `SQLITE_CORRUPT`, not with the cannot-open error the claim
states (the backend stays empty either way). -/
theorem wal_open_missing_db_counterexample :
    (vfsOpen ⟨[], 0⟩ "db-wal" walCreateFlags).1 = SQLITE_CORRUPT ∧
    SQLITE_CORRUPT ≠ SQLITE_CANTOPEN ∧
    (vfsOpen ⟨[], 0⟩ "db-wal" walCreateFlags).2.contents = [] :=
  ⟨rfl, by decide, rfl⟩

/-- C4 (amended): if the backend contains neither a FileState named like the
WAL file itself nor one named the WAL filename with `"-wal"` stripped, then
opening that WAL (even with the create flag) fails with the corruption error
`SQLITE_CORRUPT` (the source maps the missing pairing to corruption, and
caches errno `ENOMEM`), and no FileState is added. -/
theorem wal_open_missing_db (v : Vfs) (name : String) (fl : OpenFlags)
    (hself : vfsContentLookup v name = none)
    (hdb : vfsContentLookup v (name.dropRight 4) = none)
    (hcr : fl.create = true) (hmd : fl.mainDb = false)
    (hmj : fl.mainJournal = false) (hw : fl.wal = true) :
    vfsOpen v name fl = (SQLITE_CORRUPT, {v with error := ENOMEM}) ∧
    (vfsOpen v name fl).2.contents = v.contents := by
  have h : vfsOpen v name fl = (SQLITE_CORRUPT, {v with error := ENOMEM}) := by
    unfold vfsOpen
    rw [hself]
    simp only [hcr, hmd, hmj, hw, Bool.not_true, Bool.false_eq_true, if_false,
      if_true]
    unfold vfsDatabaseContentLookup
    rw [hdb]
    rfl
  exact ⟨h, by rw [h]⟩

/-- Witness for C4's amended theorem on the empty backend. -/
theorem wal_open_missing_db_witness :
    vfsOpen ⟨[], 0⟩ "db-wal" walCreateFlags =
      (SQLITE_CORRUPT, {Vfs.mk [] 0 with error := ENOMEM}) :=
  (wal_open_missing_db ⟨[], 0⟩ "db-wal" walCreateFlags rfl rfl rfl rfl rfl
    rfl).1

/-! ### C5 — WAL truncation -/

/-- A WAL whose 32-byte header has been written (first byte 1) but which holds
no frames yet: such a file is "empty" for `vfsFileTruncate`. -/
def walHdrOnly : VfsContent :=
  { filename := "db-wal", pages := [], pageSize := 512, refcount := 1,
    type := .wal, shm := vfsShmInit, walRef := none,
    hdr := 1 :: List.replicate 31 0 }

/-- C5 counterexample: on a frameless WAL whose header has been written,
truncation to a non-zero size fails with `SQLITE_IOERR_TRUNCATE` (not the
protocol error the claim states), and truncation to zero is a no-op that
leaves the non-zero header bytes in place. -/
theorem wal_truncate_counterexample :
    vfsFileTruncate walHdrOnly 32 = (SQLITE_IOERR_TRUNCATE, walHdrOnly) ∧
    SQLITE_IOERR_TRUNCATE ≠ SQLITE_PROTOCOL ∧
    vfsFileTruncate walHdrOnly 0 = (SQLITE_OK, walHdrOnly) ∧
    walHdrOnly.hdr ≠ List.replicate 32 0 :=
  ⟨rfl, by decide, rfl, by decide⟩

/-- C5 (amended): for a WAL holding at least one frame, truncation to a
non-zero size is refused with the protocol error, and truncation to zero
resets the 32-byte WAL header to zeros and destroys all frames; for a
frameless WAL (even one whose header was written) truncation to a non-zero
size fails with `SQLITE_IOERR_TRUNCATE` and truncation to zero is a no-op
that leaves the header untouched. -/
theorem wal_truncate (c : VfsContent) (size : Nat) (hty : c.type = .wal) :
    (c.pages ≠ [] →
      (size ≠ 0 → vfsFileTruncate c size = (SQLITE_PROTOCOL, c)) ∧
      (size = 0 → vfsFileTruncate c size =
        (SQLITE_OK, {c with pages := [], hdr := List.replicate 32 0}))) ∧
    (c.pages = [] →
      (0 < size → vfsFileTruncate c size = (SQLITE_IOERR_TRUNCATE, c)) ∧
      (size = 0 → vfsFileTruncate c size = (SQLITE_OK, c))) := by
  constructor
  · intro hp
    have hE : vfsContentIsEmpty c = false := by
      simp [vfsContentIsEmpty, List.length_eq_zero, hp]
    constructor
    · intro hsz
      simp [vfsFileTruncate, hty, hE, hsz]
    · intro hsz
      subst hsz
      simp [vfsFileTruncate, hty, hE, vfsContentTruncate]
  · intro hp
    have hE : vfsContentIsEmpty c = true := by
      simp [vfsContentIsEmpty, hp]
    constructor
    · intro hsz
      simp [vfsFileTruncate, hty, hE, hsz, Nat.pos_iff_ne_zero.mp hsz]
    · intro hsz
      subst hsz
      simp [vfsFileTruncate, hty, hE]

/-- A WAL with one 512-byte frame and a non-zero header. -/
def walOneFrame : VfsContent :=
  {walHdrOnly with pages := [vfsPageCreate 512 true]}

/-- Witness for C5's amended theorem on concrete WAL contents. -/
theorem wal_truncate_witness :
    vfsFileTruncate walOneFrame 32 = (SQLITE_PROTOCOL, walOneFrame) ∧
    vfsFileTruncate walOneFrame 0 =
      (SQLITE_OK, {walOneFrame with pages := [], hdr := List.replicate 32 0}) ∧
    vfsFileTruncate walHdrOnly 7 = (SQLITE_IOERR_TRUNCATE, walHdrOnly) :=
  ⟨((wal_truncate walOneFrame 32 rfl).1 (by decide)).1 (by decide),
   ((wal_truncate walOneFrame 0 rfl).1 (by decide)).2 rfl,
   ((wal_truncate walHdrOnly 7 rfl).2 rfl).1 (by decide)⟩

/-! ### C6 — database-header page-size decoding -/

/-- The value-level core of `formatDecodePageSize`, on the already decoded
32-bit big-endian value. -/
def decodePS (V : Nat) : Nat :=
  if V = 1 then PAGE_SIZE_MAX
  else if V < PAGE_SIZE_MIN then 0
  else if V > PAGE_SIZE_MAX / 2 then 0
  else if (V - 1) &&& V != 0 then 0
  else V

lemma formatDecodePageSize_eq_decodePS (b0 b1 b2 b3 : Nat) :
    formatDecodePageSize b0 b1 b2 b3 = decodePS (formatGet32 b0 b1 b2 b3) := rfl

lemma decodePS_pow (V : Nat) (h1 : 512 ≤ V) (h2 : V ≤ 32768)
    (h3 : ∃ k, V = 2 ^ k) : decodePS V = V := by
  have hland : (V - 1) &&& V = 0 := (land_pred_eq_zero_iff V (by omega)).mpr h3
  unfold decodePS PAGE_SIZE_MIN PAGE_SIZE_MAX
  rw [if_neg (by omega), if_neg (by omega), if_neg (by omega), hland]
  simp

lemma decodePS_invalid (V : Nat) (h1 : V ≠ 1)
    (h2 : ¬(512 ≤ V ∧ V ≤ 32768 ∧ ∃ k, V = 2 ^ k)) : decodePS V = 0 := by
  unfold decodePS PAGE_SIZE_MIN PAGE_SIZE_MAX
  rw [if_neg h1]
  by_cases hlt : V < 512
  · rw [if_pos hlt]
  · rw [if_neg hlt]
    by_cases hgt : V > 65536 / 2
    · rw [if_pos hgt]
    · rw [if_neg hgt]
      have hnp : ¬∃ k, V = 2 ^ k := fun h3 =>
        h2 ⟨by omega, by omega, h3⟩
      have hland : (V - 1) &&& V ≠ 0 := fun h =>
        hnp ((land_pred_eq_zero_iff V (by omega)).mp h)
      simp [hland]

/-- C6: the stored two-byte big-endian value `V = 256*h16 + h17` of the
database header's bytes 16..18 decodes to 65536 when `V = 1`, to `V` itself
when `V` is a power of two in `[512, 32768]`, and is rejected (the decoder
yields 0 and the first database write fails with `SQLITE_CORRUPT`) for every
other stored value. -/
theorem db_header_page_size_decode (h16 h17 : Nat)
    (hb16 : h16 < 256) (hb17 : h17 < 256) (buf : List Nat)
    (hg16 : buf.getD 16 0 = h16) (hg17 : buf.getD 17 0 = h17)
    (v : Vfs) (c : VfsContent) (hty : c.type = .database) :
    (256 * h16 + h17 = 1 → formatDatabaseGetPageSize buf = 65536) ∧
    (512 ≤ 256 * h16 + h17 → 256 * h16 + h17 ≤ 32768 →
      (∃ k, 256 * h16 + h17 = 2 ^ k) →
      formatDatabaseGetPageSize buf = 256 * h16 + h17) ∧
    (256 * h16 + h17 ≠ 1 →
      ¬(512 ≤ 256 * h16 + h17 ∧ 256 * h16 + h17 ≤ 32768 ∧
        ∃ k, 256 * h16 + h17 = 2 ^ k) →
      formatDatabaseGetPageSize buf = 0 ∧
      vfsFileWrite v c buf 0 = (SQLITE_CORRUPT, c)) := by
  have hV : formatGet32 0 0 h16 h17 = 256 * h16 + h17 := by
    unfold formatGet32
    ring
  have hdec : formatDatabaseGetPageSize buf = decodePS (256 * h16 + h17) := by
    unfold formatDatabaseGetPageSize
    rw [hg16, hg17, formatDecodePageSize_eq_decodePS, hV]
  refine ⟨?_, ?_, ?_⟩
  · intro h1
    rw [hdec, h1]
    rfl
  · intro h1 h2 h3
    rw [hdec]
    exact decodePS_pow _ h1 h2 h3
  · intro h1 h2
    have h0 : formatDatabaseGetPageSize buf = 0 := by
      rw [hdec]
      exact decodePS_invalid _ h1 h2
    refine ⟨h0, ?_⟩
    obtain ⟨fn, pgs, ps0, rc0, ty, sh, wr, hd⟩ := c
    cases hty
    simp [vfsFileWrite, format__get_page_size_db, h0]

/-- Witness for C6 at two concrete headers: stored value 4096 (valid) decodes
to 4096; stored value 768 (not a power of two) is rejected and the first
database write fails. -/
theorem db_header_page_size_decode_witness :
    formatDatabaseGetPageSize
      (List.replicate 16 0 ++ [16, 0] ++ List.replicate 82 0) = 256 * 16 + 0 ∧
    (formatDatabaseGetPageSize
      (List.replicate 16 0 ++ [3, 0] ++ List.replicate 82 0) = 0 ∧
     vfsFileWrite ⟨[], 0⟩ (vfsContentCreate "db" .database)
       (List.replicate 16 0 ++ [3, 0] ++ List.replicate 82 0) 0 =
       (SQLITE_CORRUPT, vfsContentCreate "db" .database)) :=
  ⟨(db_header_page_size_decode 16 0 (by decide) (by decide) _ (by decide)
      (by decide) ⟨[], 0⟩ (vfsContentCreate "db" .database) rfl).2.1
    (by decide) (by decide) ⟨12, by decide⟩,
   (db_header_page_size_decode 3 0 (by decide) (by decide) _ (by decide)
      (by decide) ⟨[], 0⟩ (vfsContentCreate "db" .database) rfl).2.2
    (by decide)
    (by
      rintro ⟨-, -, k, hk⟩
      have hk1 : k < 10 := by
        by_contra hge
        push_neg at hge
        have : 2 ^ 10 ≤ 2 ^ k := Nat.pow_le_pow_right (by omega) hge
        omega
      interval_cases k <;> omega)⟩

/-! ### C7 — delete with open handles -/

lemma deleteScan_busy (name : String) (l : List VfsContent) (c : VfsContent)
    (hf : l.find? (fun x => x.filename == name) = some c)
    (hrc : 0 < c.refcount) : deleteScan name l = .busy := by
  induction l with
  | nil => simp at hf
  | cons a as ih =>
    by_cases hpa : (a.filename == name) = true
    · rw [@List.find?_cons_of_pos _ (fun x => x.filename == name) a as hpa] at hf
      injection hf with hf
      subst hf
      unfold deleteScan
      rw [if_pos hpa, if_pos hrc]
    · rw [@List.find?_cons_of_neg _ (fun x => x.filename == name) a as hpa] at hf
      unfold deleteScan
      rw [if_neg hpa, ih hf]

lemma deleteScan_ok (name : String) (l : List VfsContent) (c : VfsContent)
    (hf : l.find? (fun x => x.filename == name) = some c)
    (hrc : c.refcount = 0) (hnd : (l.map VfsContent.filename).Nodup) :
    ∃ rest, deleteScan name l = .ok rest ∧
      rest.find? (fun x => x.filename == name) = none := by
  induction l with
  | nil => simp at hf
  | cons a as ih =>
    rw [List.map_cons, List.nodup_cons] at hnd
    by_cases hpa : (a.filename == name) = true
    · rw [@List.find?_cons_of_pos _ (fun x => x.filename == name) a as hpa] at hf
      injection hf with hf
      subst hf
      refine ⟨as, ?_, ?_⟩
      · unfold deleteScan
        rw [if_pos hpa, if_neg (by omega)]
      · rw [List.find?_eq_none]
        intro x hx
        have hax : x.filename ≠ a.filename := by
          intro he
          exact hnd.1 (he ▸ List.mem_map_of_mem _ hx)
        have hname : a.filename = name := by simpa using hpa
        simp [hname ▸ hax]
    · rw [@List.find?_cons_of_neg _ (fun x => x.filename == name) a as hpa] at hf
      obtain ⟨rest, hds, hfr⟩ := ih hf hnd.2
      refine ⟨a :: rest, ?_, ?_⟩
      · unfold deleteScan
        rw [if_neg hpa, hds]
      · rw [@List.find?_cons_of_neg _ (fun x => x.filename == name) a rest hpa]
        exact hfr

/-- C7: when a FileState named `name` exists with a positive refcount,
`delete(name)` fails with `SQLITE_IOERR_DELETE`, caches the busy errno
(`EBUSY`, which the last-error query then reports), and leaves the FileState
in place; when it exists with refcount 0, `delete(name)` succeeds, destroys
the FileState, and a subsequent `access(name)` reports absent. -/
theorem delete_busy_or_destroy (v : Vfs) (name : String) (c : VfsContent)
    (hfind : vfsContentLookup v name = some c) :
    (0 < c.refcount →
      vfsDeleteContent v name = (SQLITE_IOERR_DELETE, {v with error := EBUSY}) ∧
      vfsGetLastError (vfsDeleteContent v name).2 = EBUSY ∧
      vfsContentLookup (vfsDeleteContent v name).2 name = some c) ∧
    (c.refcount = 0 → (v.contents.map VfsContent.filename).Nodup →
      (vfsDeleteContent v name).1 = SQLITE_OK ∧
      vfsAccess (vfsDeleteContent v name).2 name = (SQLITE_OK, 0)) := by
  constructor
  · intro hrc
    have hbusy := deleteScan_busy name v.contents c hfind hrc
    unfold vfsDeleteContent
    rw [hbusy]
    exact ⟨rfl, rfl, hfind⟩
  · intro hrc hnd
    obtain ⟨rest, hds, hfr⟩ := deleteScan_ok name v.contents c hfind hrc hnd
    unfold vfsDeleteContent
    rw [hds]
    refine ⟨rfl, ?_⟩
    unfold vfsAccess vfsContentLookup
    dsimp only
    rw [hfr]

/-- A database content with one open handle. -/
def dbBusy : VfsContent := {vfsContentCreate "db" .database with refcount := 1}

/-- A database content with no open handles. -/
def dbFree : VfsContent := vfsContentCreate "db2" .database

/-- Witness for C7 on two concrete backends: deleting `"db"` while its
refcount is 1 reports the busy-flavored failure and keeps the file; deleting
`"db2"` with refcount 0 succeeds and `access` then reports absent. -/
theorem delete_busy_or_destroy_witness :
    (vfsDeleteContent ⟨[dbBusy], 0⟩ "db" =
        (SQLITE_IOERR_DELETE, {Vfs.mk [dbBusy] 0 with error := EBUSY}) ∧
      vfsGetLastError (vfsDeleteContent ⟨[dbBusy], 0⟩ "db").2 = EBUSY ∧
      vfsContentLookup (vfsDeleteContent ⟨[dbBusy], 0⟩ "db").2 "db" =
        some dbBusy) ∧
    ((vfsDeleteContent ⟨[dbFree], 0⟩ "db2").1 = SQLITE_OK ∧
      vfsAccess (vfsDeleteContent ⟨[dbFree], 0⟩ "db2").2 "db2" =
        (SQLITE_OK, 0)) :=
  ⟨(delete_busy_or_destroy ⟨[dbBusy], 0⟩ "db" dbBusy rfl).1 (by decide),
   (delete_busy_or_destroy ⟨[dbFree], 0⟩ "db2" dbFree rfl).2 rfl
     (by simp)⟩

/-! ### C10 — the `page_size` pragma on a file whose size is set -/

lemma int_pow_two_iff (n : Int) (h1 : 512 ≤ n) :
    ((n.toNat - 1) &&& n.toNat = 0 ↔ ∃ k : Nat, n = 2 ^ k) := by
  have hnn : (0 : Int) ≤ n := by omega
  have hpos : 0 < n.toNat := by omega
  rw [land_pred_eq_zero_iff n.toNat hpos]
  constructor
  · rintro ⟨k, hk⟩
    refine ⟨k, ?_⟩
    rw [← Int.toNat_of_nonneg hnn, hk]
    push_cast
    ring
  · rintro ⟨k, hk⟩
    refine ⟨k, ?_⟩
    have h2 : n = ((2 ^ k : Nat) : Int) := by
      rw [hk]
      push_cast
      ring
    rw [h2, Int.toNat_ofNat]

/-- C10: for a file whose page size is already set to `S`, the pragma
`page_size = N` returns the not-found pass-through signal and leaves the
stored size unchanged whenever `N = S` or `N` is not a valid power of two in
`[512, 65536]`; it fails with `SQLITE_IOERR` exactly when `N` is such a valid
power of two and differs from `S`. -/
theorem pragma_page_size (c : VfsContent) (n : Int) (hS : 0 < c.pageSize) :
    ((n = (c.pageSize : Int) ∨
      ¬(512 ≤ n ∧ n ≤ 65536 ∧ ∃ k : Nat, n = 2 ^ k)) →
      vfsFileControlPragmaPageSize c n = (SQLITE_NOTFOUND, c)) ∧
    ((512 ≤ n ∧ n ≤ 65536 ∧ ∃ k : Nat, n = 2 ^ k) → n ≠ (c.pageSize : Int) →
      vfsFileControlPragmaPageSize c n = (SQLITE_IOERR, c)) := by
  constructor
  · rintro (heq | hninv)
    · unfold vfsFileControlPragmaPageSize
      by_cases hc : 512 ≤ n ∧ n ≤ 65536 ∧ (n.toNat - 1) &&& n.toNat = 0
      · rw [if_pos hc, if_neg (by
          rintro ⟨-, hne⟩
          exact hne heq)]
        have htn : n.toNat = c.pageSize := by
          rw [heq, Int.toNat_ofNat]
        rw [htn]
      · rw [if_neg hc]
    · unfold vfsFileControlPragmaPageSize
      rw [if_neg (by
        rintro ⟨hc1, hc2, hc3⟩
        exact hninv ⟨hc1, hc2, (int_pow_two_iff n hc1).mp hc3⟩)]
  · rintro ⟨h1, h2, h3⟩ hne
    unfold vfsFileControlPragmaPageSize
    rw [if_pos ⟨h1, h2, (int_pow_two_iff n h1).mpr h3⟩,
      if_pos ⟨by omega, hne⟩]

/-- A database content whose page size is already 4096. -/
def dbPS : VfsContent := {vfsContentCreate "db" .database with pageSize := 4096}

/-- Witness for C10 at page size 4096: `page_size=4096` and the invalid
`page_size=100000` pass through unchanged, `page_size=8192` fails. -/
theorem pragma_page_size_witness :
    vfsFileControlPragmaPageSize dbPS 4096 = (SQLITE_NOTFOUND, dbPS) ∧
    vfsFileControlPragmaPageSize dbPS 100000 = (SQLITE_NOTFOUND, dbPS) ∧
    vfsFileControlPragmaPageSize dbPS 8192 = (SQLITE_IOERR, dbPS) :=
  ⟨(pragma_page_size dbPS 4096 (by decide)).1 (Or.inl (by decide)),
   (pragma_page_size dbPS 100000 (by decide)).1 (Or.inr (by
      rintro ⟨-, h, -⟩
      omega)),
   (pragma_page_size dbPS 8192 (by decide)).2
     ⟨by decide, by decide, ⟨13, by decide⟩⟩ (by decide)⟩

end Dqlite
